import Mathlib

/-!
Verification development for the glucose-measurement visualization program
(src/cgv.py).  The Python source is embedded shallowly:

* calendar dates are modeled as proleptic-Gregorian ordinals (`Int`), the
  model used by Python's `date.toordinal`: ordinal 1 is 0001-01-01, a Monday,
  so `weekday d = (d - 1) % 7` with Monday = 0, matching `date.weekday()`;
* a timestamped measurement row is the pair of its calendar date and its
  (already numeric) glucose value;
* Python exceptions are modeled with `Except`; a function that can raise
  returns `Except PyExc _`;
* decimal values are modeled as `Rat` (exact decimal arithmetic);
* strings stay `String`; literal braces inside LaTeX line fragments are
  written with hexadecimal escapes.
-/

namespace Cgv

/-- Python exception kinds that the embedded code can raise. -/
inductive PyExc where
  | indexError
  | attributeError
  | typeError
deriving DecidableEq

/-- Weekday of an ordinal date, as in Python `date.weekday()`:
Monday = 0 … Sunday = 6.  Ordinal 1 (0001-01-01) is a Monday. -/
def weekday (d : Int) : Int :=
  (d - 1) % 7

/-- Embedding of the `Week` dataclass (src/cgv.py lines 35-74):
`first_day` is the ordinal date of the first day, `week_number` the 1-based
index assigned during segmentation. -/
structure Week where
  first_day : Int
  week_number : Int
deriving DecidableEq

/-- Embedding of `Week.last_day` (line 50): `first_day + 6` days. -/
def Week.last_day (w : Week) : Int :=
  w.first_day + 6

/-- Embedding of `Week.inside_week` (lines 58-63). -/
def Week.inside_week (w : Week) (day : Int) : Bool :=
  decide (w.first_day ≤ day ∧ day ≤ w.last_day)

/-- Embedding of `Week.time_span` (lines 65-71).  The source formats both
ordinal dates with `%d.%m.%Y`; the rendering of an ordinal as text is
abstracted to its decimal numeral (no claim depends on the label format,
only on the label being determined by the week). -/
def Week.time_span (w : Week) : String :=
  toString w.first_day ++ " - " ++ toString w.last_day

/-- Embedding of the Monday alignment in `CGV.segmenting_time_period`
(lines 135-137): a non-Monday date is rolled back by its weekday. -/
def aligned_first_day (minDate : Int) : Int :=
  if weekday minDate > 0 then minDate - weekday minDate else minDate

/-- Embedding of the `while` loop of `CGV.segmenting_time_period`
(lines 142-145): while `first_week_day < last_day`, first advance
`first_week_day` by `days` and increment the counter, then append
`Week(first_week_day, week)`.  Termination is by the strictly decreasing
measure `(lastDay - first_week_day).toNat`, which needs `0 < days`. -/
def segmentingLoop (days lastDay : Int) (h : 0 < days) (first_week_day week : Int) : List Week :=
  if hlt : first_week_day < lastDay then
    Week.mk (first_week_day + days) (week + 1) ::
      segmentingLoop days lastDay h (first_week_day + days) (week + 1)
  else
    []
termination_by (lastDay - first_week_day).toNat
decreasing_by
  simp_wf
  omega

/-- Embedding of `CGV.segmenting_time_period` (lines 131-146).  `minDate`
and `maxDate` stand for `self.dates.min().date()` and
`self.dates.max().date()` of the cleaned series; the loop starts at the
Monday-aligned first day with the week counter at 0. -/
def segmenting_time_period (minDate maxDate : Int) (days : Int) (h : 0 < days) : List Week :=
  segmentingLoop days maxDate h (aligned_first_day minDate) 0

/-- Embedding of the column-presence check of `CGV.__init__`
(lines 93-104): when the column is present the attribute is set
(`Except.ok (some column)`); when it is absent the source merely
evaluates `ValueError(message)` and discards the result without raising,
so the check still completes normally with the attribute unset
(`Except.ok none`).  No branch returns `Except.error`. -/
def check_column (columns : List String) (column : String) : Except PyExc (Option String) :=
  if column ∈ columns then
    Except.ok (some column)
  else
    let _discardedValueError := "Column-Name " ++ column ++ " is not given in the provided csv-file"
    Except.ok none

/-- Embedding of the per-week row selection of `CGV.plot_week`
(lines 161-164): rows whose date lies between `first_day` and `last_day`
of the week, inclusive.  A row is the pair (date, glucose value). -/
def select_week (data : List (Int × Rat)) (w : Week) : List (Int × Rat) :=
  data.filter (fun r => decide (w.first_day ≤ r.1 ∧ r.1 ≤ w.last_day))

/-- Embedding of `CGV.plot_path` (lines 189-190). -/
def plot_path (w : Week) : String :=
  "./figures/Week" ++ toString w.week_number ++ "-" ++ w.time_span ++ ".pgf"

/-- Embedding of the week-argument resolution of `CGV.plot_week`
(lines 159-160): an `int` argument is looked up with
`list(filter(lambda x: x.week_number == week, self.weeks))[0]`, whose
`[0]` raises `IndexError` when the filtered list is empty; a `Week`
argument passes through. -/
def resolve_week (weeks : List Week) : Int ⊕ Week → Except PyExc Week
  | Sum.inl n =>
    match (weeks.filter (fun x => x.week_number == n)).head? with
    | none => Except.error PyExc.indexError
    | some w => Except.ok w
  | Sum.inr w => Except.ok w

/-- Embedding of `CGV.plot_week` (lines 157-187): resolve the week
argument, select the in-range rows, and if the selection is empty print
an informational message and return `None` (`Except.ok none`); otherwise
write the figure and return its path (`Except.ok (some path)`). -/
def plot_week (weeks : List Week) (data : List (Int × Rat)) (input : Int ⊕ Week) :
    Except PyExc (Option String) := do
  let w ← resolve_week weeks input
  if (select_week data w).length = 0 then
    return none
  else
    return some (plot_path w)

/-- Python `range(a, b)` over `Int`: the list `a, a+1, …, b-1`
(empty when `b ≤ a`). -/
def intRange (a b : Int) : List Int :=
  (List.range (b - a).toNat).map (fun i => a + i)

/-- Embedding of `CGV.plot_week_range` (lines 201-205): plot each week
number in `range(first_week, last_week)` (the upper bound is excluded by
Python `range`), collecting the returned paths. -/
def plot_week_range (weeks : List Week) (data : List (Int × Rat)) (first_week last_week : Int) :
    Except PyExc (List (Option String)) :=
  (intRange first_week last_week).mapM (fun n => plot_week weeks data (Sum.inl n))

/-- Embedding of `CGV.plot_all_weeks` (lines 196-199).  The source
evaluates `min(self.weeks.keys())`, but `self.weeks` is the `list[Week]`
returned by `segmenting_time_period` (line 112) and `list` has no
attribute `keys`, so the call unconditionally raises `AttributeError`
before any week is plotted. -/
def plot_all_weeks (_weeks : List Week) (_data : List (Int × Rat)) :
    Except PyExc (List (Option String)) :=
  Except.error PyExc.attributeError

/-- Digit characters: the decimal digit `n` as a character; every result
is one of `'0'` … `'9'` (inputs above nine clamp to `'9'`, which no claim
exercises). -/
def natToDigitChar (n : Nat) : Char :=
  match n with
  | 0 => '0'
  | 1 => '1'
  | 2 => '2'
  | 3 => '3'
  | 4 => '4'
  | 5 => '5'
  | 6 => '6'
  | 7 => '7'
  | 8 => '8'
  | _ => '9'

/-- Value of a list of decimal digits, most significant first. -/
def digitsVal (ds : List Nat) : Nat :=
  ds.foldl (fun a d => 10 * a + d) 0

/-- Value of a list of decimal digit characters, most significant
first. -/
def charsVal (cs : List Char) : Nat :=
  cs.foldl (fun a c => 10 * a + (c.toNat - 48)) 0

/-- Split a character list at the first `'.'`: the characters before it,
and (when a dot occurs) the characters after it. -/
def splitAtDot : List Char → List Char × Option (List Char)
  | [] => ([], none)
  | c :: cs =>
    if c = '.' then
      ([], some cs)
    else
      match splitAtDot cs with
      | (intPart, rest) => (c :: intPart, rest)

/-- Branch bodies of the decimal parser, on the already split numeral:
no dot means an all-digit nonempty numeral; one dot means all-digit
integer and fraction parts, not both empty. -/
def parseDecimalParts : List Char × Option (List Char) → Option Rat
  | (intPart, none) =>
    if !intPart.isEmpty && intPart.all Char.isDigit then
      some ((charsVal intPart : Nat) : Rat)
    else
      none
  | (intPart, some fracPart) =>
    if (!intPart.isEmpty || !fracPart.isEmpty) && intPart.all Char.isDigit
        && fracPart.all Char.isDigit then
      some ((charsVal intPart : Rat) + (charsVal fracPart : Rat) / (10 : Rat) ^ fracPart.length)
    else
      none

/-- Model of the external numeric parser (`pd.to_numeric`, an external
collaborator per the spec) restricted to unsigned decimal numerals: an
all-digit integer part, optionally followed by one dot and an all-digit
fraction part; at least one digit overall.  Anything else fails
(`none`). -/
def parseDecimal (cs : List Char) : Option Rat :=
  parseDecimalParts (splitAtDot cs)

/-- Embedding of `glucose_data.str.replace(pat=",", repl=".")`
(line 154) on one string: every comma character becomes a dot. -/
def replaceCommaByDot (cs : List Char) : List Char :=
  cs.map (fun c => if c = ',' then '.' else c)

/-- Embedding of `CGV.convert_glucose_data` (lines 148-155) on a single
glucose-value string: comma-to-dot replacement followed by numeric
parsing. -/
def convert_glucose_value (s : String) : Option Rat :=
  parseDecimal (replaceCommaByDot s.data)

/-- Embedding of `CGV.convert_glucose_data` (lines 148-155) on the whole
value column: every entry is converted; `pd.to_numeric` raising on any
entry is modeled by `none`. -/
def convert_glucose_data (vals : List String) : Option (List Rat) :=
  vals.mapM convert_glucose_value

/-- Embedding of the path filter in `PDF.__init__` (line 223):
`[Path(pgf) for pgf in pgf_paths if Path(pgf).exists()]`.  An entry that
is an artifact path string is kept exactly when `diskHas` says the file
exists; an absent entry (`None`, returned by `plot_week` for an empty
week) makes `Path(None)` raise `TypeError`. -/
def pdf_filter_paths (diskHas : String → Bool) : List (Option String) → Except PyExc (List String)
  | [] => Except.ok []
  | none :: _ => Except.error PyExc.typeError
  | some p :: rest =>
    match pdf_filter_paths diskHas rest with
    | Except.error e => Except.error e
    | Except.ok r => Except.ok (if diskHas p then p :: r else r)

/-- Embedding of `PDF.preamble` (lines 229-242); literal braces are
written with hexadecimal escapes. -/
def pdf_preamble (name : String) : List String :=
  [ "\\documentclass[DIV=15]\x7bscrreprt\x7d"
  , "\\usepackage[T1]\x7bfontenc\x7d"
  , "\\usepackage[utf8]\x7binputenc\x7d"
  , "\\usepackage[ngerman]\x7bbabel\x7d"
  , "\\usepackage\x7btxfonts\x7d%"
  , "\\usepackage\x7bpgfplots\x7d"
  , "\\usepackage\x7bscrlayer-scrpage\x7d"
  , "\\ihead\x7b" ++ name ++ "\x7d"
  , "\\ohead\x7bGlukose-Werte\x7d"
  ]

/-- The embedded-artifact line of `PDF.document` (line 249): a tab, then
an `input` macro around the artifact path. -/
def tab_input_line (p : String) : String :=
  "\t\\input\x7b" ++ p ++ "\x7d"

/-- Embedding of `PDF.document` (lines 244-253): a begin-document header,
one centered embedded-artifact block per surviving path in order, and the
end-document footer. -/
def pdf_document_lines (paths : List String) : List String :=
  ["\\begin\x7bdocument\x7d", ""]
    ++ paths.flatMap (fun p => ["\\begin\x7bcenter\x7d", tab_input_line p, "\\end\x7bcenter\x7d", ""])
    ++ ["\\end\x7bdocument\x7d"]

/-- Embedding of the document source assembled by `PDF.build_tex_file`
(lines 255-259): preamble followed by document body. -/
def pdf_tex_lines (name : String) (paths : List String) : List String :=
  pdf_preamble name ++ pdf_document_lines paths

/-- A line of the assembled document that embeds an artifact: by
construction of `pdf_document_lines`, exactly the lines that start with a
tab character. -/
def head_is_tab (l : String) : Bool :=
  l.data.head? == some '\t'

/-- The embedded-artifact lines of an assembled document, in order. -/
def embedded_input_lines (lines : List String) : List String :=
  lines.filter head_is_tab

/-- Embedding of `PDF.__init__` up to the built document source
(lines 222-259): filter the artifact paths by existence on disk, then
build the preamble and document lines that `build_tex_file` writes.  The
subprocess invocation of `pdflatex` (line 263) is an external collaborator
and out of scope. -/
def pdf_init (diskHas : String → Bool) (pgf_paths : List (Option String)) (name : String) :
    Except PyExc (List String) :=
  (pdf_filter_paths diskHas pgf_paths).map (pdf_tex_lines name)

/-- Default date-column name of `CGV.__init__` (line 88), as spelled in the
source. -/
def defaultDateColumn : String := "GerÃ¤tezeitstempel"

/-- Default glucose-column name of `CGV.__init__` (line 89). -/
def defaultGlucoseColumn : String := "Glukosewert-Verlauf mmol/L"

/-- Sample artifact path used by concrete witnesses. -/
def samplePathA : String := "figures/Week1.pgf"

/-- Second sample artifact path used by concrete witnesses. -/
def samplePathB : String := "figures/Week2.pgf"

/-- Third sample artifact path used by concrete witnesses. -/
def samplePathC : String := "figures/Week3.pgf"

/-- Sample report display name used by concrete witnesses. -/
def sampleName : String := "Sample"

/-- Sample disk state used by concrete witnesses: every file except
`samplePathB` exists. -/
def sampleDisk (p : String) : Bool :=
  !(p == samplePathB)

theorem seven_pos : (0 : Int) < 7 := by norm_num

/-- Every element emitted by the segmentation loop is determined by its
position: the `i`-th emitted week starts `(i+1)` steps of `days` after the
loop's starting boundary and carries week number `week + i + 1`. -/
theorem segmentingLoop_getElem? (days lastDay : Int) (h : 0 < days) :
    ∀ (i : Nat) (fwd week : Int) (w : Week),
      (segmentingLoop days lastDay h fwd week)[i]? = some w →
      w.first_day = fwd + ((i : Int) + 1) * days ∧ w.week_number = week + (i : Int) + 1 := by
  intro i
  induction i with
  | zero =>
    intro fwd week w hw
    rw [segmentingLoop] at hw
    split at hw
    · simp only [List.getElem?_cons_zero, Option.some.injEq] at hw
      subst hw
      constructor <;> simp
    · simp at hw
  | succ i ih =>
    intro fwd week w hw
    rw [segmentingLoop] at hw
    split at hw
    · simp only [List.getElem?_cons_succ] at hw
      obtain ⟨h1, h2⟩ := ih (fwd + days) (week + 1) w hw
      constructor
      · rw [h1]; push_cast; ring
      · rw [h2]; push_cast; ring
    · simp at hw

/-- The segmentation loop emits nothing exactly when its guard fails at
entry. -/
theorem segmentingLoop_eq_nil_iff (days lastDay : Int) (h : 0 < days) (fwd week : Int) :
    segmentingLoop days lastDay h fwd week = [] ↔ lastDay ≤ fwd := by
  rw [segmentingLoop]
  split
  · simp
    omega
  · simp
    omega

/-- When the segmentation loop emits anything, its last emitted week
starts on or after `lastDay`: the advancing boundary has passed the
maximum date when the loop exits. -/
theorem segmentingLoop_getLast?_ge (days lastDay : Int) (h : 0 < days) :
    ∀ (n : Nat) (fwd week : Int), (lastDay - fwd).toNat ≤ n →
      ∀ w : Week, (segmentingLoop days lastDay h fwd week).getLast? = some w →
        lastDay ≤ w.first_day := by
  intro n
  induction n with
  | zero =>
    intro fwd week hn w hw
    rw [segmentingLoop] at hw
    split at hw
    · omega
    · simp at hw
  | succ n ih =>
    intro fwd week hn w hw
    rw [segmentingLoop] at hw
    split at hw
    · rename_i hlt
      rcases heq : segmentingLoop days lastDay h (fwd + days) (week + 1) with _ | ⟨a, l⟩
      · rw [heq] at hw
        simp only [List.getLast?_singleton, Option.some.injEq] at hw
        subst hw
        have := (segmentingLoop_eq_nil_iff days lastDay h (fwd + days) (week + 1)).mp heq
        simpa using this
      · rw [heq] at hw
        rw [List.getLast?_cons_cons] at hw
        rw [← heq] at hw
        exact ih (fwd + days) (week + 1) (by omega) w hw
    · simp at hw

/-- Concrete run shared by several witnesses: a series from Tuesday
ordinal 9 to ordinal 20 yields exactly the two weeks starting at
ordinals 15 and 22. -/
theorem seg_nine_twenty :
    segmenting_time_period 9 20 7 seven_pos = [Week.mk 15 1, Week.mk 22 2] := by
  rw [segmenting_time_period]
  norm_num [aligned_first_day, weekday]
  rw [segmentingLoop]
  norm_num
  rw [segmentingLoop]
  norm_num
  rw [segmentingLoop]
  norm_num

/-- Claim C2 (code defect, concrete evaluation): for the series with
minimum date ordinal 9 — a Tuesday, whose Monday on or before is
ordinal 8 — the first week emitted by `segmenting_time_period` starts at
ordinal 15, the Monday strictly after the minimum date, because the loop
advances the boundary before appending; so the first emitted `first_day`
is not the Monday on or before the minimum date, and the minimum date
lies in no emitted week. -/
theorem first_segment_start_misaligned :
    weekday 9 = 1 ∧
    aligned_first_day 9 = 8 ∧
    segmenting_time_period 9 9 7 seven_pos = [Week.mk 15 1] ∧
    ¬ (Week.mk 15 1).first_day ≤ 9 := by
  refine ⟨by decide, by norm_num [aligned_first_day, weekday], ?_, by decide⟩
  rw [segmenting_time_period]
  norm_num [aligned_first_day, weekday]
  rw [segmentingLoop]
  norm_num
  rw [segmentingLoop]
  norm_num

/-- Claim C3: the weeks returned by `segmenting_time_period` (with the
default seven-day segment) are positionally determined: the `i`-th week
has week number `i + 1` (starting at 1, no gaps), and each adjacent pair
is contiguous (`last_day + 1 = first_day` of the next), strictly
increasing in both `first_day` and `week_number`. -/
theorem segments_contiguous_ordered (minD maxD : Int) :
    (∀ (i : Nat) (a : Week),
        (segmenting_time_period minD maxD 7 seven_pos)[i]? = some a →
        a.week_number = (i : Int) + 1) ∧
    (∀ (i : Nat) (a b : Week),
        (segmenting_time_period minD maxD 7 seven_pos)[i]? = some a →
        (segmenting_time_period minD maxD 7 seven_pos)[i + 1]? = some b →
        a.last_day + 1 = b.first_day ∧ a.first_day < b.first_day ∧
          a.week_number + 1 = b.week_number) := by
  unfold segmenting_time_period
  constructor
  · intro i a ha
    have h2 := (segmentingLoop_getElem? 7 maxD seven_pos i _ 0 a ha).2
    omega
  · intro i a b ha hb
    obtain ⟨ha1, ha2⟩ := segmentingLoop_getElem? 7 maxD seven_pos i _ 0 a ha
    obtain ⟨hb1, hb2⟩ := segmentingLoop_getElem? 7 maxD seven_pos (i + 1) _ 0 b hb
    unfold Week.last_day
    push_cast at ha1 ha2 hb1 hb2
    refine ⟨by omega, by omega, by omega⟩

/-- Witness for C3: in the run over ordinals 9–20, week 1 (ordinals
15–21) is contiguous with and strictly precedes week 2 (starting
ordinal 22). -/
theorem segments_contiguous_ordered_witness :
    (Week.mk 15 1).last_day + 1 = (Week.mk 22 2).first_day ∧
    (Week.mk 15 1).first_day < (Week.mk 22 2).first_day ∧
    (Week.mk 15 1).week_number + 1 = (Week.mk 22 2).week_number :=
  (segments_contiguous_ordered 9 20).2 0 (Week.mk 15 1) (Week.mk 22 2)
    (by rw [seg_nine_twenty]; rfl) (by rw [seg_nine_twenty]; rfl)

/-- Claim C4 (code defect, concrete evaluation): a series consisting of a
single data point on Monday ordinal 8 produces no segment at all —
`segmenting_time_period` returns the empty list because the loop guard
`first_week_day < last_day` fails immediately — contradicting the claim
that at least one covering segment is produced. -/
theorem single_day_series_unsegmented :
    weekday 8 = 0 ∧
    segmenting_time_period 8 8 7 seven_pos = [] := by
  refine ⟨by decide, ?_⟩
  rw [segmenting_time_period]
  norm_num [aligned_first_day, weekday]
  rw [segmentingLoop]
  norm_num

/-- Claim C5: for every positive segment length, the generation loop of
`segmenting_time_period` terminates (the function is total by
well-founded recursion on `(maxDate - boundary).toNat`): the boundary
recorded in successive weeks strictly increases each iteration, the last
recorded boundary has passed the finite maximum date, and when no week is
emitted the starting boundary had already passed it. -/
theorem segmentation_terminates (days : Int) (h : 0 < days) (minD maxD : Int) :
    (∀ (i : Nat) (a b : Week),
        (segmenting_time_period minD maxD days h)[i]? = some a →
        (segmenting_time_period minD maxD days h)[i + 1]? = some b →
        a.first_day < b.first_day) ∧
    (∀ w : Week, (segmenting_time_period minD maxD days h).getLast? = some w →
        maxD ≤ w.first_day) ∧
    (segmenting_time_period minD maxD days h = [] → maxD ≤ aligned_first_day minD) := by
  unfold segmenting_time_period
  refine ⟨?_, ?_, ?_⟩
  · intro i a b ha hb
    obtain ⟨ha1, _⟩ := segmentingLoop_getElem? days maxD h i _ 0 a ha
    obtain ⟨hb1, _⟩ := segmentingLoop_getElem? days maxD h (i + 1) _ 0 b hb
    rw [ha1, hb1]
    have hmul : ((i : Int) + 1) * days < ((i : Int) + 1 + 1) * days := by
      apply mul_lt_mul_of_pos_right _ h
      omega
    push_cast
    linarith
  · intro w hw
    exact segmentingLoop_getLast?_ge days maxD h ((maxD - aligned_first_day minD).toNat) _ 0
      le_rfl w hw
  · intro hnil
    exact (segmentingLoop_eq_nil_iff days maxD h _ 0).mp hnil

/-- Witness for C5: in the run over ordinals 9–20 with the default
seven-day segment, the last emitted week starts at ordinal 22, past the
maximum date 20. -/
theorem segmentation_terminates_witness :
    (20 : Int) ≤ (Week.mk 22 2).first_day :=
  (segmentation_terminates 7 seven_pos 9 20).2.1 (Week.mk 22 2)
    (by rw [seg_nine_twenty]; rfl)

/-- Claim C1 (code defect, concrete evaluation): with a header that lacks
the configured glucose column, the validation branch of `CGV.__init__`
completes normally — the `ValueError` is constructed and discarded, no
exception is raised and the attribute stays unset — and in general the
check returns normally on every input, so construction never fails with a
schema error at the validation point. -/
theorem missing_column_check_does_not_raise :
    check_column [defaultDateColumn] defaultGlucoseColumn = Except.ok none ∧
    ∀ (cols : List String) (c : String), ∃ v, check_column cols c = Except.ok v := by
  constructor
  · rfl
  · intro cols c
    unfold check_column
    by_cases hmem : c ∈ cols
    · exact ⟨some c, by rw [if_pos hmem]⟩
    · exact ⟨none, by rw [if_neg hmem]⟩

/-- Claim C6: a week whose in-range selection is empty is skipped without
an exception: `plot_week` returns `Except.ok none` (no artifact path),
whether the week is passed as a value or resolved from its number, so
callers iterating over the remaining weeks continue. -/
theorem empty_selection_skipped (weeks : List Week) (data : List (Int × Rat)) (w : Week)
    (hsel : select_week data w = []) :
    plot_week weeks data (Sum.inr w) = Except.ok none ∧
    (∀ n : Int, resolve_week weeks (Sum.inl n) = Except.ok w →
      plot_week weeks data (Sum.inl n) = Except.ok none) := by
  constructor
  · show (if (select_week data w).length = 0 then (pure none : Except PyExc (Option String))
      else pure (some (plot_path w))) = Except.ok none
    rw [hsel]
    rfl
  · intro n hres
    unfold plot_week
    rw [hres]
    show (if (select_week data w).length = 0 then (pure none : Except PyExc (Option String))
      else pure (some (plot_path w))) = Except.ok none
    rw [hsel]
    rfl

/-- Witness for C6: an empty series gives an empty selection for the week
starting at ordinal 8, and plotting that week returns no path and no
error. -/
theorem empty_selection_skipped_witness :
    plot_week [] [] (Sum.inr (Week.mk 8 1)) = Except.ok none :=
  (empty_selection_skipped [] [] (Week.mk 8 1) rfl).1

/-- Claim C10: when no generated week carries the requested week number,
`plot_week` with an integer argument raises (`IndexError` from indexing
the first element of an empty filtered list) instead of returning an
absent artifact. -/
theorem missing_week_number_raises (weeks : List Week) (data : List (Int × Rat)) (n : Int)
    (hnone : ∀ w ∈ weeks, w.week_number ≠ n) :
    plot_week weeks data (Sum.inl n) = Except.error PyExc.indexError := by
  have hfil : weeks.filter (fun x => x.week_number == n) = [] := by
    rw [List.filter_eq_nil_iff]
    intro a ha
    simp only [beq_iff_eq]
    exact hnone a ha
  have hres : resolve_week weeks (Sum.inl n) = Except.error PyExc.indexError := by
    show (match (weeks.filter (fun x => x.week_number == n)).head? with
      | none => Except.error PyExc.indexError
      | some w => Except.ok w) = Except.error PyExc.indexError
    rw [hfil]
    rfl
  unfold plot_week
  rw [hres]
  rfl

/-- Witness for C10: with the single generated week numbered 1,
requesting week 2 raises. -/
theorem missing_week_number_raises_witness :
    plot_week [Week.mk 8 1] [] (Sum.inl 2) = Except.error PyExc.indexError :=
  missing_week_number_raises [Week.mk 8 1] [] 2 (by decide)

/-- Claim C8 (code defect, concrete evaluation): on a series segmented
into two weeks with data in both, `plot_all_weeks` raises
`AttributeError` — the source calls `self.weeks.keys()` although
`self.weeks` is a list — instead of rendering every week; and even the
underlying `plot_week_range(1, 2)` renders only week 1, because Python
`range` excludes its upper bound, so the last week is never rendered. -/
theorem plot_all_weeks_raises :
    plot_all_weeks [Week.mk 15 1, Week.mk 22 2] [(15, 5), (22, 6)]
      = Except.error PyExc.attributeError ∧
    plot_week_range [Week.mk 15 1, Week.mk 22 2] [(15, 5), (22, 6)] 1 2
      = Except.ok [some (plot_path (Week.mk 15 1))] := by
  constructor
  · rfl
  · rfl

/-- The embedded-artifact line of a block starts with a tab. -/
theorem head_is_tab_input (p : String) : head_is_tab (tab_input_line p) = true := by
  cases p with
  | mk l => rfl

/-- No preamble line starts with a tab, whatever the display name. -/
theorem preamble_filter (name : String) : (pdf_preamble name).filter head_is_tab = [] := by
  cases name with
  | mk l => rfl

/-- Of the four lines of one centered block, only the embedded-artifact
line starts with a tab. -/
theorem block_filter (p : String) :
    (["\\begin\x7bcenter\x7d", tab_input_line p, "\\end\x7bcenter\x7d", ""].filter head_is_tab)
      = [tab_input_line p] := by
  cases p with
  | mk l => rfl

/-- The embedded-artifact lines of the document body are exactly one
`input` line per path, in the given order. -/
theorem doc_filter (fs : List String) :
    (pdf_document_lines fs).filter head_is_tab = fs.map tab_input_line := by
  unfold pdf_document_lines
  rw [List.filter_append, List.filter_append]
  have h1 : (["\\begin\x7bdocument\x7d", ""].filter head_is_tab) = [] := rfl
  have h2 : (["\\end\x7bdocument\x7d"].filter head_is_tab) = [] := rfl
  rw [h1, h2, List.append_nil, List.nil_append]
  induction fs with
  | nil => rfl
  | cons p ps ih =>
    rw [List.flatMap_cons, List.filter_append, ih, block_filter, List.map_cons]
    rfl

/-- Filtering a list of present path strings keeps, in order, exactly
those that exist on disk. -/
theorem pdf_filter_paths_map_some (diskHas : String → Bool) (ps : List String) :
    pdf_filter_paths diskHas (ps.map some) = Except.ok (ps.filter diskHas) := by
  induction ps with
  | nil => rfl
  | cons p ps ih =>
    rw [List.map_cons]
    show (match pdf_filter_paths diskHas (ps.map some) with
      | Except.error e => Except.error e
      | Except.ok r => Except.ok (if diskHas p then p :: r else r))
      = Except.ok ((p :: ps).filter diskHas)
    rw [ih, List.filter_cons]

/-- A Boolean filter and its negation split the length of a list. -/
theorem length_filter_not {α : Type} (p : α → Bool) (l : List α) :
    (l.filter p).length + (l.filter (fun x => !(p x))).length = l.length := by
  induction l with
  | nil => rfl
  | cons a l ih =>
    cases h : p a with
    | false =>
      simp [List.filter_cons, h]
      omega
    | true =>
      simp [List.filter_cons, h]
      omega

/-- Claim C7 counterexample: an absent artifact entry (the `None`
returned by `plot_week` for an empty week) is not silently skipped by the
assembler: `Path(None)` raises `TypeError`, so no document is built at
all. -/
theorem pdf_absent_artifact_raises :
    pdf_init (fun _ => true) [some samplePathA, none] sampleName
      = Except.error PyExc.typeError := rfl

/-- Claim C7 (amended): for every list of present artifact-path strings,
the assembler builds the document, embedding exactly one block per path
that exists on disk, in the given order; path strings whose files are
missing on disk are silently skipped, so a list with exactly one missing
artifact yields one fewer embedded block than the path count. -/
theorem pdf_embeds_existing_in_order (diskHas : String → Bool) (name : String) (ps : List String) :
    pdf_init diskHas (ps.map some) name = Except.ok (pdf_tex_lines name (ps.filter diskHas)) ∧
    embedded_input_lines (pdf_tex_lines name (ps.filter diskHas))
      = (ps.filter diskHas).map tab_input_line ∧
    ((ps.filter (fun p => !(diskHas p))).length = 1 →
      (embedded_input_lines (pdf_tex_lines name (ps.filter diskHas))).length = ps.length - 1) := by
  have hlines : embedded_input_lines (pdf_tex_lines name (ps.filter diskHas))
      = (ps.filter diskHas).map tab_input_line := by
    unfold embedded_input_lines pdf_tex_lines
    rw [List.filter_append, preamble_filter, doc_filter, List.nil_append]
  refine ⟨?_, hlines, ?_⟩
  · unfold pdf_init
    rw [pdf_filter_paths_map_some]
    rfl
  · intro hone
    rw [hlines, List.length_map]
    have := length_filter_not diskHas ps
    omega

/-- Witness for C7 (amended): of three artifact paths with exactly the
second missing on disk, the built document embeds two blocks — one fewer
than the path count. -/
theorem pdf_embeds_existing_in_order_witness :
    (embedded_input_lines (pdf_tex_lines sampleName
      ([samplePathA, samplePathB, samplePathC].filter sampleDisk))).length = 2 := by
  have h := (pdf_embeds_existing_in_order sampleDisk sampleName
    [samplePathA, samplePathB, samplePathC]).2.2 (by rfl)
  simpa using h

/-- A digit character is never a comma. -/
theorem natToDigitChar_ne_comma (d : Nat) : natToDigitChar d ≠ ',' := by
  unfold natToDigitChar
  split <;> decide

/-- A digit character is never a dot. -/
theorem natToDigitChar_ne_dot (d : Nat) : natToDigitChar d ≠ '.' := by
  unfold natToDigitChar
  split <;> decide

/-- A digit character passes `Char.isDigit`. -/
theorem natToDigitChar_isDigit (d : Nat) : (natToDigitChar d).isDigit = true := by
  unfold natToDigitChar
  split <;> decide

/-- For digits below ten, the character code gives back the digit. -/
theorem natToDigitChar_toNat (d : Nat) (h : d < 10) : (natToDigitChar d).toNat - 48 = d := by
  interval_cases d <;> decide

/-- Folding the decimal-value step over the digit characters of a digit
list computes the same value as folding it over the digits. -/
theorem charsVal_aux : ∀ (ds : List Nat), (∀ x ∈ ds, x < 10) →
    ∀ acc : Nat, (ds.map natToDigitChar).foldl (fun a c => 10 * a + (c.toNat - 48)) acc
      = ds.foldl (fun a d => 10 * a + d) acc := by
  intro ds
  induction ds with
  | nil => intro _ acc; rfl
  | cons x xs ih =>
    intro hd acc
    have hx : x < 10 := hd x (List.mem_cons_self x xs)
    have hxs : ∀ y ∈ xs, y < 10 := fun y hy => hd y (List.mem_cons_of_mem x hy)
    simp only [List.map_cons, List.foldl_cons]
    rw [natToDigitChar_toNat x hx]
    exact ih hxs _

/-- Splitting at the dot of `A ++ '.' :: B` recovers `A` and `B` when `A`
holds no dot. -/
theorem splitAtDot_no_dot : ∀ (A B : List Char), (∀ c ∈ A, c ≠ '.') →
    splitAtDot (A ++ '.' :: B) = (A, some B) := by
  intro A
  induction A with
  | nil =>
    intro B _
    simp [splitAtDot]
  | cons c cs ih =>
    intro B h
    have hc : c ≠ '.' := h c (List.mem_cons_self c cs)
    simp only [List.cons_append, splitAtDot, if_neg hc, List.append_eq]
    rw [ih B (fun x hx => h x (List.mem_cons_of_mem c hx))]

/-- Claim C9: every valid comma-decimal numeral — a nonempty digit
string, a comma, and a nonempty digit string — converts to the
corresponding dot-decimal numeric value `intPart + fracPart / 10 ^
(number of fraction digits)`. -/
theorem comma_decimal_converts (d1 d2 : List Nat) (h1 : d1 ≠ []) (_h2 : d2 ≠ [])
    (hd1 : ∀ x ∈ d1, x < 10) (hd2 : ∀ x ∈ d2, x < 10) :
    convert_glucose_value (String.mk (d1.map natToDigitChar ++ ',' :: d2.map natToDigitChar))
      = some ((digitsVal d1 : Rat) + (digitsVal d2 : Rat) / (10 : Rat) ^ d2.length) := by
  unfold convert_glucose_value parseDecimal
  have hrep : replaceCommaByDot (d1.map natToDigitChar ++ ',' :: d2.map natToDigitChar)
      = d1.map natToDigitChar ++ '.' :: d2.map natToDigitChar := by
    unfold replaceCommaByDot
    rw [List.map_append, List.map_cons, if_pos rfl, List.map_map, List.map_map]
    congr 1
    · exact List.map_congr_left (fun a _ => if_neg (natToDigitChar_ne_comma a))
    · congr 1
      exact List.map_congr_left (fun a _ => if_neg (natToDigitChar_ne_comma a))
  have hdata : (String.mk (d1.map natToDigitChar ++ ',' :: d2.map natToDigitChar)).data
      = d1.map natToDigitChar ++ ',' :: d2.map natToDigitChar := rfl
  rw [hdata, hrep]
  rw [splitAtDot_no_dot _ _ (by
    intro c hc
    obtain ⟨a, _, rfl⟩ := List.mem_map.mp hc
    exact natToDigitChar_ne_dot a)]
  have hIntNe : (d1.map natToDigitChar).isEmpty = false := by
    cases d1 with
    | nil => exact absurd rfl h1
    | cons a l => rfl
  have hIntDig : (d1.map natToDigitChar).all Char.isDigit = true := by
    rw [List.all_eq_true]
    intro c hc
    obtain ⟨a, _, rfl⟩ := List.mem_map.mp hc
    exact natToDigitChar_isDigit a
  have hFracDig : (d2.map natToDigitChar).all Char.isDigit = true := by
    rw [List.all_eq_true]
    intro c hc
    obtain ⟨a, _, rfl⟩ := List.mem_map.mp hc
    exact natToDigitChar_isDigit a
  show (if ((!(d1.map natToDigitChar).isEmpty || !(d2.map natToDigitChar).isEmpty)
        && (d1.map natToDigitChar).all Char.isDigit
        && (d2.map natToDigitChar).all Char.isDigit) = true then
      some ((charsVal (d1.map natToDigitChar) : Rat)
        + (charsVal (d2.map natToDigitChar) : Rat) / (10 : Rat) ^ (d2.map natToDigitChar).length)
    else none)
    = some ((digitsVal d1 : Rat) + (digitsVal d2 : Rat) / (10 : Rat) ^ d2.length)
  rw [hIntNe, hIntDig, hFracDig]
  simp only [Bool.not_false, Bool.true_or, Bool.true_and, if_true]
  have hv1 : charsVal (d1.map natToDigitChar) = digitsVal d1 := charsVal_aux d1 hd1 0
  have hv2 : charsVal (d2.map natToDigitChar) = digitsVal d2 := charsVal_aux d2 hd2 0
  rw [hv1, hv2, List.length_map]

/-- Witness for C9: the digit strings behind the literals of the claim:
the numeral built from digits 7 comma 4 is the string of characters of
the numeral seven-comma-four, and it converts to the numeric value 7.4;
likewise 1 2 comma 0 converts to 12. -/
theorem comma_decimal_converts_witness :
    convert_glucose_value (String.mk (([7] : List Nat).map natToDigitChar
      ++ ',' :: ([4] : List Nat).map natToDigitChar)) = some ((7.4 : Rat)) ∧
    convert_glucose_value (String.mk (([1, 2] : List Nat).map natToDigitChar
      ++ ',' :: ([0] : List Nat).map natToDigitChar)) = some ((12.0 : Rat)) := by
  constructor
  · rw [comma_decimal_converts [7] [4] (by decide) (by decide) (by decide) (by decide)]
    norm_num [digitsVal]
  · rw [comma_decimal_converts [1, 2] [0] (by decide) (by decide) (by decide) (by decide)]
    norm_num [digitsVal]

end Cgv
